import Mathlib

/-!
Verification of the `pynougat` nested-value accessor.

This file gives a shallow embedding of `src/src/pynougat.py` — the function
`nougat` (here `nougat`), its helper `_make_path_accessor`, and the public
factory `nougat_cached` — and proves or refutes the frozen claims about it.

Modelling conventions:
* Python values that can appear as traversal cursors are the inductive `Value`:
  `None`, booleans, integers, strings, lists, tuples, dicts, objects exposing
  a well-behaved `get(key, default)` method (`objGet`), and objects exposing
  only `__getitem__` that raises `KeyError` on an absent key (`objItem`).
* Path keys are `Key` (strings or integers), matching the annotation
  `Union[str, int]`; a tuple of alternative keys is the step `Step.alts`.
* Exceptions are the inductive `PyExn`; fallible code returns `Except`.
  `KeyError`, `IndexError` and `TypeError` are the lookup-style errors the
  source catches locally; `ValueError` (from `int(...)` on a non-numeric
  string, or from `str.split` with an empty separator) is not among them.
* The traversal loop carries the Python local `result`; when an exception
  escapes a step, the `except Exception` handler at the bottom of `nougat`
  returns `transform(result) if transform else result`, so the loop's error
  outcome carries the cursor value held when the exception was raised.
-/

inductive Key where
  | str (s : String)
  | int (n : Int)
deriving DecidableEq

inductive PyExn where
  | keyError
  | indexError
  | typeError
  | valueError
deriving DecidableEq

inductive Value where
  | none
  | bool (b : Bool)
  | int (n : Int)
  | str (s : String)
  | list (xs : List Value)
  | tuple (xs : List Value)
  | dict (entries : List (Key × Value))
  | objGet (entries : List (Key × Value))
  | objItem (entries : List (Key × Value))

inductive Step where
  | key (k : Key)
  | alts (ks : List Key)

/-- Association lookup used for dict membership and `dict[key]`, and for the
modelled `get` methods; keys of distinct runtime types are never equal. -/
def lookupKey : List (Key × Value) → Key → Option Value
  | [], _ => Option.none
  | (k', v) :: rest, k => if k' = k then some v else lookupKey rest k

/-- Core of Python `int(x)` on a `str`/`int` key: an `int` is returned
unchanged; a string must be an optional sign followed by one or more decimal
digits, otherwise `ValueError` is raised. (Surrounding whitespace and digit
underscores, which CPython also accepts, are not modelled; no claim depends
on them.) -/
def digitsToNat (cs : List Char) : Nat :=
  cs.foldl (fun a c => a * 10 + (c.toNat - '0'.toNat)) 0

def parseDecimal (cs : List Char) : Option Int :=
  match cs with
  | '+' :: rest =>
      if rest ≠ [] ∧ rest.all Char.isDigit then some (Int.ofNat (digitsToNat rest))
      else Option.none
  | '-' :: rest =>
      if rest ≠ [] ∧ rest.all Char.isDigit then some (-(Int.ofNat (digitsToNat rest)))
      else Option.none
  | _ =>
      if cs ≠ [] ∧ cs.all Char.isDigit then some (Int.ofNat (digitsToNat cs))
      else Option.none

def pyInt : Key → Except PyExn Int
  | .int n => .ok n
  | .str s =>
      match parseDecimal s.toList with
      | some n => .ok n
      | Option.none => .error .valueError

/-- Values on which `hasattr(result, 'get')` holds: dicts, and the modelled
get-capable objects. -/
def hasGet : Value → Bool
  | .dict _ => true
  | .objGet _ => true
  | _ => false

/-- Values for which `isinstance(result, (list, tuple))` holds. -/
def isListOrTuple : Value → Bool
  | .list _ => true
  | .tuple _ => true
  | _ => false

/-- Raw Python sequence indexing `xs[i]`: a negative index counts from the
end; after that adjustment an out-of-range index is `None` here (the caller
turns it into `IndexError`). -/
def pyIndex {α : Type} (xs : List α) (i : Int) : Option α :=
  let j : Int := if i < 0 then i + xs.length else i
  if 0 ≤ j then xs.get? j.toNat else Option.none

/-- The scalar list/tuple branch's explicit bound `0 <= key < len(result)`:
no negative-index wrap-around. -/
def listAt (xs : List Value) (i : Int) : Option Value :=
  if 0 ≤ i ∧ i < (xs.length : Int) then xs.get? i.toNat else Option.none

/-- Raw Python subscript `result[key]` on the modelled values: dict lookup
(`KeyError` on absence), sequence and string indexing with wrap-around
(`IndexError` out of range, `TypeError` for a string key), `objItem` lookup
(`KeyError` on absence), and `TypeError` on everything unsubscriptable. -/
def getitem : Value → Key → Except PyExn Value
  | .dict es, k =>
      match lookupKey es k with
      | some v => .ok v
      | Option.none => .error .keyError
  | .list xs, .int i =>
      match pyIndex xs i with
      | some v => .ok v
      | Option.none => .error .indexError
  | .tuple xs, .int i =>
      match pyIndex xs i with
      | some v => .ok v
      | Option.none => .error .indexError
  | .list _, .str _ => .error .typeError
  | .tuple _, .str _ => .error .typeError
  | .str s, .int i =>
      match pyIndex s.toList i with
      | some c => .ok (.str (String.mk [c]))
      | Option.none => .error .indexError
  | .str _, .str _ => .error .typeError
  | .objItem es, k =>
      match lookupKey es k with
      | some v => .ok v
      | Option.none => .error .keyError
  | _, _ => .error .typeError

/-- The exception classes the source's inner handlers catch:
`except (KeyError, IndexError, TypeError)`. -/
def lookupErr : PyExn → Bool
  | .keyError => true
  | .indexError => true
  | .typeError => true
  | .valueError => false

/-- One-argument `result.get(alt_key)` as used in the alternatives branch:
Python's `get` with no fallback returns `None` on an absent key. Only called
under the `hasattr(result, 'get')` guard. -/
def getNoFallback (result : Value) (k : Key) : Value :=
  match result with
  | .dict es => (lookupKey es k).getD .none
  | .objGet es => (lookupKey es k).getD .none
  | _ => .none

/-- The alternative-keys branch (`isinstance(key, tuple)`): for each candidate,
a get-capable non-sequence cursor runs `result = result.get(alt_key)` and
breaks unconditionally; otherwise `result = result[alt_key]` breaks on
success and `except (KeyError, IndexError, TypeError)` continues with the
next candidate. The `for`–`else` sets `result = default` when no candidate
matched. -/
def execAlt (default result : Value) : List Key → Except PyExn Value
  | [] => .ok default
  | ak :: rest =>
      if hasGet result && !isListOrTuple result then
        .ok (getNoFallback result ak)
      else
        match getitem result ak with
        | .ok v => .ok v
        | .error e =>
            if lookupErr e then execAlt default result rest
            else .error e

/-- The `__getitem__` branch: try `result[key]`; on a caught lookup error
retry `result[int(key)]`; a lookup error from the retry yields `default`,
while an exception from `int(key)` itself (a `ValueError`) is not caught by
`except (KeyError, IndexError, TypeError)` and escapes the step. -/
def subscriptStep (default result : Value) (key : Key) : Except PyExn Value :=
  match getitem result key with
  | .ok v => .ok v
  | .error e =>
      if lookupErr e then
        match pyInt key with
        | .error e' => .error e'
        | .ok n =>
            match getitem result (.int n) with
            | .ok v => .ok v
            | .error e' => if lookupErr e' then .ok default else .error e'
      else .error e

/-- Cursors and keys that reach the `hasattr(result, '__getitem__')` branch:
strings, lists/tuples with a non-integer key, and subscript-only objects. -/
def subscriptBranch : Value → Key → Bool
  | .str _, _ => true
  | .objItem _, _ => true
  | .list _, .str _ => true
  | .tuple _, .str _ => true
  | _, _ => false

/-- One scalar-key step of the loop body, mirroring the source's `if`/`elif`
chain in order: dict fast path; list/tuple with an integer key under the
explicit bound; get-capable non-sequence via `get(key, _SENTINEL)` (the
sentinel is a private fresh object, so `result is _SENTINEL` holds exactly
when the key is absent, and the stored value is returned otherwise even when
it equals `default`); `__getitem__` fallback; else `TypeError` under
`strict_types` and `default` otherwise. -/
def execStep (strict_types : Bool) (default result : Value) (key : Key) :
    Except PyExn Value :=
  match result, key with
  | .dict es, k =>
      match lookupKey es k with
      | some v => .ok v
      | Option.none => .ok default
  | .list xs, .int i =>
      match listAt xs i with
      | some v => .ok v
      | Option.none => .ok default
  | .tuple xs, .int i =>
      match listAt xs i with
      | some v => .ok v
      | Option.none => .ok default
  | .objGet es, k =>
      match lookupKey es k with
      | some v => .ok v
      | Option.none => .ok default
  | .list xs, .str s => subscriptStep default (.list xs) (.str s)
  | .tuple xs, .str s => subscriptStep default (.tuple xs) (.str s)
  | .str s, k => subscriptStep default (.str s) k
  | .objItem es, k => subscriptStep default (.objItem es) k
  | _, _ =>
      if strict_types then .error .typeError else .ok default

/-- The `for key in keys` loop. A step that raises leaves the local `result`
at its pre-step value (every raise in the source happens before the
assignment to `result`), so the error outcome carries that cursor for the
top-level handler. -/
def runSteps (strict_types : Bool) (default : Value) :
    Value → List Step → Except (PyExn × Value) Value
  | result, [] => .ok result
  | result, step :: rest =>
      match
        (match step with
         | .alts ks => execAlt default result ks
         | .key k => execStep strict_types default result k) with
      | .ok r => runSteps strict_types default r rest
      | .error e => .error (e, result)

/-- Python `transform(result) if transform else result`; a transform may
itself raise. -/
def applyTransform (transform : Option (Value → Except PyExn Value))
    (v : Value) : Except PyExn Value :=
  match transform with
  | Option.none => .ok v
  | some f => f v

/-- Manual prefix test on character lists (avoids library name clashes). -/
def startsWith : List Char → List Char → Bool
  | [], _ => true
  | _ :: _, [] => false
  | p :: ps, c :: cs => p == c && startsWith ps cs

/-- Python `s.split(sep)` for a non-empty `sep`: cut at each left-to-right
non-overlapping occurrence of `sep`; adjacent occurrences produce empty
pieces, and a string with no occurrence splits into the one-element list of
itself. Structural recursion on a fuel argument (each call consumes at least
one character and exactly one unit of fuel, so fuel `s.length` is enough;
the exhausted-fuel arm is then unreachable). -/
def pySplitFuel (sep : List Char) : Nat → List Char → List (List Char)
  | _, [] => [[]]
  | 0, _ :: _ => [[]]
  | fuel + 1, c :: rest =>
      if startsWith sep (c :: rest) then
        [] :: pySplitFuel sep fuel (rest.drop (sep.length - 1))
      else
        match pySplitFuel sep fuel rest with
        | [] => [[c]]
        | h :: t => (c :: h) :: t

def pySplit (s sep : String) : List String :=
  (pySplitFuel sep.toList s.toList.length s.toList).map (fun cs => String.mk cs)

/-- Lines 43–44 of the source: when `separator` is given and the caller
supplied exactly one path element that is a string, replace the path by the
split pieces. `str.split` raises `ValueError: empty separator` on an empty
separator, and this happens before the `try` block, so it escapes `nougat`. -/
def splitSingleStr (separator : Option String) (keys : List Step) :
    Except PyExn (List Step) :=
  match separator, keys with
  | some sep, [Step.key (Key.str s)] =>
      if sep = "" then .error .valueError
      else .ok ((pySplit s sep).map (fun p => Step.key (Key.str p)))
  | _, _ => .ok keys

/-- The function `nougat` of `src/src/pynougat.py`. The success path computes
`transform(result) if transform else result` inside the `try`; if the
transform raises there, the `except Exception` handler re-evaluates the same
expression on the same `result`, so for the (deterministic) modelled
transforms the success outcome is `applyTransform transform final` either
way. When a step raises, the handler returns
`transform(result) if transform else result` with `result` the cursor held
at raise time — the partially traversed value, not `default`. -/
def nougat (data : Value) (keys : List Step) (default : Value)
    (separator : Option String)
    (transform : Option (Value → Except PyExn Value))
    (strict_types : Bool) : Except PyExn Value :=
  match keys with
  | [] => .ok data
  | _ :: _ =>
      match splitSingleStr separator keys with
      | .error e => .error e
      | .ok keys' =>
          match runSteps strict_types default data keys' with
          | .ok final => applyTransform transform final
          | .error (_, r) => applyTransform transform r

/-- Argument shapes accepted by `nougat_cached` for `path_components`:
either a dot-joined string or a list of step components. -/
inductive PathComponents where
  | pc_str (s : String)
  | pc_list (l : List Step)

/-- The steps that "calling resolve directly on P" passes: a string component
is the single path element, a list is splatted. -/
def pcSteps : PathComponents → List Step
  | .pc_str s => [Step.key (Key.str s)]
  | .pc_list l => l

/-- The composition of `nougat_cached` and the accessor `_make_path_accessor`
returns: `nougat_cached` precomputes `path` (splitting a string component
when `separator` is truthy, i.e. neither `None` nor empty), and the accessor
closure calls `nougat(data, *path, default=default, separator=separator,
transform=transform, strict_types=strict)`. The `lru_cache` on
`_make_path_accessor` memoizes the closure by `(path, separator, strict)`
and does not change its behaviour, so the model applies it directly. -/
def nougat_cached (path_components : PathComponents)
    (separator : Option String) (strict : Bool)
    (data default : Value)
    (transform : Option (Value → Except PyExn Value)) : Except PyExn Value :=
  let path : List Step :=
    match path_components, separator with
    | .pc_str s, some sep =>
        if sep = "" then [Step.key (Key.str s)]
        else (pySplit s sep).map (fun p => Step.key (Key.str p))
    | .pc_str s, Option.none => [Step.key (Key.str s)]
    | .pc_list l, _ => l
  nougat data path default separator transform strict

/-- Shape test for the split condition `len(keys) == 1 and isinstance(keys[0], str)`. -/
def isSingleStrKey : List Step → Bool
  | [Step.key (Key.str _)] => true
  | _ => false

example : pySplit "a.b.c" "." = ["a", "b", "c"] := rfl
example : pySplit "user..name" "." = ["user", "", "name"] := rfl
example : pySplit "abc" "." = ["abc"] := rfl
example : pySplit "" "." = [""] := rfl

example :
    nougat (.dict [(.str "a", .dict [(.str "b", .int 7)])])
      [.key (.str "a"), .key (.str "b")] .none Option.none Option.none false
      = .ok (.int 7) := rfl

example :
    nougat (.dict [(.str "a", .str "hello")])
      [.key (.str "a"), .key (.str "x")] (.str "D") Option.none Option.none false
      = .ok (.str "hello") := rfl

/-! Helper lemmas about the splitter and the dispatch. -/

theorem pySplitFuel_ne_nil (sep : List Char) :
    ∀ (fuel : Nat) (s : List Char), pySplitFuel sep fuel s ≠ [] := by
  intro fuel s
  match fuel, s with
  | _, [] => simp [pySplitFuel]
  | 0, _ :: _ => simp [pySplitFuel]
  | fuel + 1, c :: rest =>
      rw [pySplitFuel]
      split
      · simp
      · split <;> simp

theorem pySplit_ne_nil (s sep : String) : pySplit s sep ≠ [] := by
  unfold pySplit
  intro h
  exact pySplitFuel_ne_nil sep.toList s.toList.length s.toList (List.map_eq_nil_iff.mp h)

theorem pySplitFuel_single (sep : List Char) :
    ∀ (fuel : Nat) (s t : List Char), s.length ≤ fuel →
      pySplitFuel sep fuel s = [t] → t = s := by
  intro fuel
  induction fuel with
  | zero =>
      intro s t hlen h
      have hs : s = [] := by cases s <;> simp_all
      subst hs
      simp [pySplitFuel] at h
      exact h
  | succ fuel ih =>
      intro s t hlen h
      cases s with
      | nil =>
          simp [pySplitFuel] at h
          exact h
      | cons c rest =>
          rw [pySplitFuel] at h
          by_cases hsw : startsWith sep (c :: rest) = true
          · rw [if_pos hsw] at h
            simp only [List.cons.injEq] at h
            exact absurd h.2 (pySplitFuel_ne_nil sep fuel _)
          · rw [if_neg hsw] at h
            cases hrec : pySplitFuel sep fuel rest with
            | nil => exact absurd hrec (pySplitFuel_ne_nil sep fuel rest)
            | cons hd tl =>
                rw [hrec] at h
                simp only [List.cons.injEq] at h
                obtain ⟨ht, htl⟩ := h
                subst htl
                have : hd = rest := ih rest hd (by simpa using Nat.le_of_succ_le_succ hlen) hrec
                subst this
                exact ht.symm

theorem mk_toList (s : String) : String.mk s.toList = s := rfl

theorem pySplit_single (s sep t : String) (h : pySplit s sep = [t]) : t = s := by
  unfold pySplit at h
  cases hq : pySplitFuel sep.toList s.toList.length s.toList with
  | nil => exact absurd hq (pySplitFuel_ne_nil _ _ _)
  | cons cs css =>
      rw [hq] at h
      simp only [List.map_cons, List.cons.injEq, List.map_eq_nil_iff] at h
      obtain ⟨h1, h2⟩ := h
      subst h2
      have hcs : cs = s.toList :=
        pySplitFuel_single sep.toList s.toList.length s.toList cs (le_refl _) hq
      rw [← h1, hcs, mk_toList]

theorem splitSingleStr_none (keys : List Step) :
    splitSingleStr Option.none keys = .ok keys := by
  cases keys with
  | nil => rfl
  | cons a l =>
      cases a with
      | alts ks => cases l <;> rfl
      | key k => cases k <;> cases l <;> rfl

theorem splitSingleStr_not_single (sep : Option String) (keys : List Step)
    (h : isSingleStrKey keys = false) : splitSingleStr sep keys = .ok keys := by
  cases sep with
  | none => exact splitSingleStr_none keys
  | some s =>
      cases keys with
      | nil => rfl
      | cons a l =>
          cases a with
          | alts ks => cases l <;> rfl
          | key k =>
              cases k with
              | int n => cases l <;> rfl
              | str s' =>
                  cases l with
                  | nil => simp [isSingleStrKey] at h
                  | cons b l2 => rfl

theorem splitSingleStr_single (sep s : String) (h : sep ≠ "") :
    splitSingleStr (some sep) [Step.key (Key.str s)] =
      .ok ((pySplit s sep).map (fun p => Step.key (Key.str p))) := by
  simp [splitSingleStr, h]

theorem nougat_cons (data : Value) (st : Step) (rest : List Step)
    (default : Value) (separator : Option String)
    (transform : Option (Value → Except PyExn Value)) (strict_types : Bool) :
    nougat data (st :: rest) default separator transform strict_types =
      match splitSingleStr separator (st :: rest) with
      | .error e => .error e
      | .ok keys' =>
          match runSteps strict_types default data keys' with
          | .ok final => applyTransform transform final
          | .error (_, r) => applyTransform transform r := rfl

theorem getitem_err_lookup (res : Value) (k : Key) (e : PyExn)
    (h : getitem res k = .error e) : lookupErr e = true := by
  cases res <;> cases k <;>
    simp only [getitem] at h <;>
    first
      | (injection h with h2; subst h2; rfl)
      | (split at h <;>
          first
            | exact Except.noConfusion h
            | (injection h with h2; subst h2; rfl))

theorem splitSingleStr_ok (separator : Option String) (keys : List Step)
    (hsep : ∀ s, separator = some s → s ≠ "") :
    ∃ keys', splitSingleStr separator keys = .ok keys' := by
  cases separator with
  | none => exact ⟨keys, splitSingleStr_none keys⟩
  | some sep =>
      cases hk : isSingleStrKey keys with
      | false => exact ⟨keys, splitSingleStr_not_single _ keys hk⟩
      | true =>
          cases keys with
          | nil => simp [isSingleStrKey] at hk
          | cons a l =>
              cases a with
              | alts ks => cases l <;> simp [isSingleStrKey] at hk
              | key k =>
                  cases k with
                  | int n => cases l <;> simp [isSingleStrKey] at hk
                  | str s =>
                      cases l with
                      | cons b l2 => simp [isSingleStrKey] at hk
                      | nil =>
                          exact ⟨_, splitSingleStr_single sep s (hsep sep rfl)⟩

/-! Claim theorems. -/

/-- C9: calling resolve with zero path steps returns `data` itself unchanged,
regardless of default, separator, transform and strict flag; in particular
the transform is not applied in this empty-path case. -/
theorem C9_empty_path_identity (data default : Value) (separator : Option String)
    (transform : Option (Value → Except PyExn Value)) (strict_types : Bool) :
    nougat data [] default separator transform strict_types = .ok data := rfl

/-- C10: totality at the public interface — with `transform = None` and a
separator that is `None` or non-empty, every call returns a value and no
exception escapes to the caller, in both strict modes: the internally raised
strict-mode `TypeError` is intercepted by the function's own top-level
handler. -/
theorem C10_no_exception_escapes (data : Value) (keys : List Step)
    (default : Value) (separator : Option String) (strict_types : Bool)
    (hsep : ∀ s, separator = some s → s ≠ "") :
    ∃ v, nougat data keys default separator Option.none strict_types =
      Except.ok v := by
  cases keys with
  | nil => exact ⟨data, rfl⟩
  | cons a l =>
      obtain ⟨keys', hsp⟩ := splitSingleStr_ok separator (a :: l) hsep
      cases hrun : runSteps strict_types default data keys' with
      | ok final =>
          exact ⟨final, by simp only [nougat_cons, hsp, hrun, applyTransform]⟩
      | error er =>
          cases er with
          | mk e r =>
              exact ⟨r, by simp only [nougat_cons, hsp, hrun, applyTransform]⟩

/-- Witness for C10: a strict-mode call that raises `TypeError` internally
(cursor `5` has no lookup capability) still returns a value. -/
theorem C10_witness :
    ∃ v, nougat (.dict [(.str "a", .int 5)]) [.key (.str "a"), .key (.str "b")]
      (.str "D") Option.none Option.none true = Except.ok v :=
  C10_no_exception_escapes _ _ _ _ _ (fun _ h => Option.noConfusion h)

/-- C7: a stored value at a present key — whether the cursor is a dict or a
get-capable object — is returned itself and never replaced by `default`:
absence is detected with the private `_SENTINEL`, so this holds for every
stored value (falsy ones and a stored `None` included) and every choice of
default, including a stored value equal to the default. -/
theorem C7_present_value_fidelity (es : List (Key × Value)) (k : Key)
    (v default : Value) (strict_types : Bool)
    (h : lookupKey es k = some v) :
    nougat (.dict es) [.key k] default Option.none Option.none strict_types
      = .ok v ∧
    nougat (.objGet es) [.key k] default Option.none Option.none strict_types
      = .ok v := by
  constructor <;>
    rw [nougat_cons, splitSingleStr_none] <;>
    simp [runSteps, execStep, h, applyTransform]

/-- Witness for C7: the stored falsy value `0` is returned (not the default
`"D"`) from both a dict and a get-capable object; a stored `None` equal to
the caller-visible absence marker is likewise returned. -/
theorem C7_witness :
    (nougat (.dict [(.str "zero", .int 0)]) [.key (.str "zero")] (.str "D")
        Option.none Option.none false = .ok (.int 0) ∧
     nougat (.objGet [(.str "zero", .int 0)]) [.key (.str "zero")] (.str "D")
        Option.none Option.none false = .ok (.int 0)) ∧
    (nougat (.dict [(.str "n", Value.none)]) [.key (.str "n")] (.str "D")
        Option.none Option.none false = .ok Value.none ∧
     nougat (.objGet [(.str "n", Value.none)]) [.key (.str "n")] (.str "D")
        Option.none Option.none false = .ok Value.none) :=
  ⟨C7_present_value_fidelity _ _ _ _ _ rfl, C7_present_value_fidelity _ _ _ _ _ rfl⟩

/-- C6: a scalar integer step on a list or tuple cursor resolves to the
element exactly when `0 ≤ k < length`, and to `default` otherwise; every
negative index resolves to `default` (no wrap-around), for every default. -/
theorem C6_sequence_indexing (xs : List Value) (i : Int) (default : Value)
    (strict_types : Bool) :
    (∀ v, 0 ≤ i → xs.get? i.toNat = some v →
        nougat (.list xs) [.key (.int i)] default Option.none Option.none
          strict_types = .ok v ∧
        nougat (.tuple xs) [.key (.int i)] default Option.none Option.none
          strict_types = .ok v) ∧
    (i < 0 ∨ (xs.length : Int) ≤ i →
        nougat (.list xs) [.key (.int i)] default Option.none Option.none
          strict_types = .ok default ∧
        nougat (.tuple xs) [.key (.int i)] default Option.none Option.none
          strict_types = .ok default) := by
  constructor
  · intro v hi hv
    have hlt : i.toNat < xs.length := (List.get?_eq_some.mp hv).1
    have hcond : listAt xs i = some v := by
      unfold listAt
      rw [if_pos ⟨hi, by omega⟩]
      exact hv
    constructor <;>
      rw [nougat_cons, splitSingleStr_none] <;>
      simp [runSteps, execStep, hcond, applyTransform]
  · intro hrange
    have hcond : listAt xs i = Option.none := by
      unfold listAt
      rw [if_neg]
      omega
    constructor <;>
      rw [nougat_cons, splitSingleStr_none] <;>
      simp [runSteps, execStep, hcond, applyTransform]

/-- Witness for C6: index `1` of a two-element list resolves to the element;
index `-1` and index `5` resolve to the default. -/
theorem C6_witness :
    nougat (.list [.int 10, .int 20]) [.key (.int 1)] (.str "D")
      Option.none Option.none false = .ok (.int 20) ∧
    nougat (.list [.int 10, .int 20]) [.key (.int (-1))] (.str "D")
      Option.none Option.none false = .ok (.str "D") ∧
    nougat (.tuple [.int 10, .int 20]) [.key (.int 5)] (.str "D")
      Option.none Option.none false = .ok (.str "D") :=
  ⟨((C6_sequence_indexing [.int 10, .int 20] 1 (.str "D") false).1
      (.int 20) (by decide) rfl).1,
   ((C6_sequence_indexing [.int 10, .int 20] (-1) (.str "D") false).2
      (Or.inl (by decide))).1,
   ((C6_sequence_indexing [.int 10, .int 20] 5 (.str "D") false).2
      (Or.inr (by decide))).2⟩

/-- C5: with a non-empty separator, a call whose single path element is a
string splits that string on the separator into scalar string steps before
traversal, so the dotted call equals the call on the split steps for every
data; and the split is not applied when more than one path element is
supplied or the single element is not a string — the separator is then
irrelevant to the result. -/
theorem C5_separator_split (data default : Value)
    (transform : Option (Value → Except PyExn Value)) (strict_types : Bool) :
    (∀ (sep s : String), sep ≠ "" →
        nougat data [.key (.str s)] default (some sep) transform strict_types =
          nougat data ((pySplit s sep).map (fun p => Step.key (Key.str p)))
            default Option.none transform strict_types) ∧
    (∀ (keys : List Step) (separator : Option String),
        isSingleStrKey keys = false →
        nougat data keys default separator transform strict_types =
          nougat data keys default Option.none transform strict_types) := by
  constructor
  · intro sep s hsep
    cases hp : (pySplit s sep).map (fun p => Step.key (Key.str p)) with
    | nil =>
        exact absurd (List.map_eq_nil_iff.mp hp) (pySplit_ne_nil s sep)
    | cons a l =>
        rw [nougat_cons, splitSingleStr_single sep s hsep, hp]
        rw [nougat_cons, splitSingleStr_none]
  · intro keys separator h
    cases keys with
    | nil => rfl
    | cons a l =>
        rw [nougat_cons, splitSingleStr_not_single separator _ h]
        rw [nougat_cons, splitSingleStr_none]

/-- Witness for C5: the dotted path `"a.b"` with separator `"."` resolves as
the two-step path, and a two-element path is unaffected by a separator. -/
theorem C5_witness :
    nougat (.dict [(.str "a", .dict [(.str "b", .int 3)])]) [.key (.str "a.b")]
      (.int 0) (some ".") Option.none false =
    nougat (.dict [(.str "a", .dict [(.str "b", .int 3)])])
      ((pySplit "a.b" ".").map (fun p => Step.key (Key.str p))) (.int 0)
      Option.none Option.none false ∧
    nougat (.dict [(.str "a", .dict [(.str "b", .int 3)])])
      [.key (.str "a"), .key (.str "b")] (.int 0) (some ".") Option.none false =
    nougat (.dict [(.str "a", .dict [(.str "b", .int 3)])])
      [.key (.str "a"), .key (.str "b")] (.int 0) Option.none Option.none false :=
  ⟨(C5_separator_split _ _ _ _).1 "." "a.b" (by decide),
   (C5_separator_split _ _ _ _).2 [.key (.str "a"), .key (.str "b")]
     (some ".") rfl⟩

/-- C4: for every fixed path, separator, strict flag, data, default and
transform, the accessor built by `nougat_cached` (via `_make_path_accessor`)
returns exactly what the direct `nougat` call on the corresponding path
returns. -/
theorem C4_cached_accessor_equiv (pc : PathComponents)
    (separator : Option String) (strict : Bool) (data default : Value)
    (transform : Option (Value → Except PyExn Value)) :
    nougat_cached pc separator strict data default transform =
      nougat data (pcSteps pc) default separator transform strict := by
  cases pc with
  | pc_list l => rfl
  | pc_str s =>
      cases separator with
      | none => rfl
      | some sep =>
          by_cases hsep : sep = ""
          · subst hsep
            simp [nougat_cached, pcSteps]
          · have hunfold :
                nougat_cached (.pc_str s) (some sep) strict data default
                    transform =
                  nougat data
                    ((pySplit s sep).map (fun p => Step.key (Key.str p)))
                    default (some sep) transform strict := by
              simp only [nougat_cached]
              rw [if_neg hsep]
            rw [hunfold]
            show _ = nougat data [Step.key (Key.str s)] default (some sep)
              transform strict
            cases hq : pySplit s sep with
            | nil => exact absurd hq (pySplit_ne_nil s sep)
            | cons p ps =>
                cases ps with
                | nil =>
                    have hp : p = s := pySplit_single s sep p hq
                    subst hp
                    simp only [List.map_cons, List.map_nil]
                | cons p2 ps2 =>
                    simp only [List.map_cons]
                    rw [nougat_cons, splitSingleStr_not_single (some sep)
                      (Step.key (Key.str p) :: Step.key (Key.str p2) ::
                        ps2.map (fun q => Step.key (Key.str q))) rfl]
                    rw [nougat_cons, splitSingleStr_single sep s hsep, hq]
                    simp only [List.map_cons]

/-- C1 counterexample: in non-strict mode with default `"D"`, traversing
`{"a": "hello"}` by `("a", "x")` hits the subscript branch on the string
cursor; `"hello"["x"]` raises `TypeError` (caught), then `int("x")` raises
`ValueError`, which the branch does not catch — the top-level handler then
returns the partially traversed cursor `"hello"`, not the default `"D"`
claimed. -/
theorem C1_counterexample :
    nougat (.dict [(.str "a", .str "hello")])
      [.key (.str "a"), .key (.str "x")] (.str "D") Option.none Option.none
      false = .ok (.str "hello") ∧
    Value.str "hello" ≠ Value.str "D" :=
  ⟨rfl, by intro h; injection h with h2; exact absurd h2 (by decide)⟩

/-- C1 (amended): in non-strict mode, any exception raised during step
traversal is caught by the function's top-level handler, and the call
resolves to the cursor value held when the exception was raised (then
transformed if a transform is given) — which may be a partially traversed
intermediate value rather than the caller's default. -/
theorem C1_caught_exception_yields_cursor (data : Value) (keys : List Step)
    (default : Value) (transform : Option (Value → Except PyExn Value))
    (e : PyExn) (r : Value)
    (hrun : runSteps false default data keys = .error (e, r)) :
    nougat data keys default Option.none transform false =
      applyTransform transform r := by
  cases keys with
  | nil => exact absurd hrun (by simp [runSteps])
  | cons a l =>
      simp only [nougat_cons, splitSingleStr_none, hrun]

/-- Witness for the amended C1 at a concrete input: the `ValueError` raised
by `int("z")` is caught and the call returns the cursor `"hi"` held at raise
time. -/
theorem C1_witness :
    nougat (.dict [(.str "b", .str "hi")]) [.key (.str "b"), .key (.str "z")]
      (.int 0) Option.none Option.none false =
      applyTransform Option.none (.str "hi") :=
  C1_caught_exception_yields_cursor _ _ _ _ .valueError _ rfl

/-- C2: the code slip behind the claim — on a cursor with no lookup
capability (`5`), strict mode raises `TypeError` inside the loop (first
conjunct), but the raise happens inside the function's own `try`, so the
top-level `except Exception` swallows it and the call returns the
intermediate cursor `5`: no typed error ever reaches the caller, and the
default `"D"` is not returned either (second conjunct). -/
theorem C2_strict_error_swallowed :
    runSteps true (.str "D") (.dict [(.str "a", .int 5)])
      [.key (.str "a"), .key (.str "b")] = .error (.typeError, .int 5) ∧
    nougat (.dict [(.str "a", .int 5)]) [.key (.str "a"), .key (.str "b")]
      (.str "D") Option.none Option.none true = .ok (.int 5) :=
  ⟨rfl, rfl⟩

/-- C3 counterexample: with the mapping cursor `{"admin": {"name": "A"}}`,
the alternative group `("user", "admin")` takes the get-capable branch,
calls `get("user")` with no fallback and breaks unconditionally: the cursor
becomes `None`, the later present candidate `"admin"` is never tried, and
the final result is the default `"D"` — not `"A"` as the claim's first-match
rule predicts. -/
theorem C3_counterexample :
    nougat (.dict [(.str "admin", .dict [(.str "name", .str "A")])])
      [.alts [.str "user", .str "admin"], .key (.str "name")]
      (.str "D") Option.none Option.none false = .ok (.str "D") ∧
    Value.str "D" ≠ Value.str "A" :=
  ⟨rfl, by intro h; injection h with h2; exact absurd h2 (by decide)⟩

/-- C3 (amended): alternative-group semantics as implemented — against a
get-capable non-sequence cursor the first candidate alone is consulted, via
`get` with no fallback, so an absent first candidate yields `None` and later
candidates are never tried; against any other cursor the candidates are
tried in declared order by raw subscript and the first whose lookup does not
raise a caught lookup error wins; an empty or exhausted group degrades the
cursor to `default`; and an alternative-group step never raises, so
traversal always continues with the next step on the updated cursor. -/
theorem C3_alternative_group_semantics :
    (∀ (default res : Value) (k : Key) (ks : List Key),
        (hasGet res && !isListOrTuple res) = true →
        execAlt default res (k :: ks) = .ok (getNoFallback res k)) ∧
    (∀ (default res : Value) (k : Key) (ks : List Key) (v : Value),
        (hasGet res && !isListOrTuple res) = false →
        getitem res k = .ok v →
        execAlt default res (k :: ks) = .ok v) ∧
    (∀ (default res : Value) (k : Key) (ks : List Key) (e : PyExn),
        (hasGet res && !isListOrTuple res) = false →
        getitem res k = .error e →
        execAlt default res (k :: ks) = execAlt default res ks) ∧
    (∀ (default res : Value), execAlt default res [] = .ok default) ∧
    (∀ (default res : Value) (ks : List Key), ∃ r,
        execAlt default res ks = .ok r) ∧
    (∀ (strict_types : Bool) (default data r : Value) (ks : List Key)
        (rest : List Step),
        execAlt default data ks = .ok r →
        runSteps strict_types default data (.alts ks :: rest) =
          runSteps strict_types default r rest) := by
  refine ⟨?_, ?_, ?_, ?_, ?_, ?_⟩
  · intro default res k ks h
    simp [execAlt, h]
  · intro default res k ks v h1 h2
    simp [execAlt, h1, h2]
  · intro default res k ks e h1 h2
    simp [execAlt, h1, h2, getitem_err_lookup res k e h2]
  · intro default res
    rfl
  · intro default res ks
    induction ks with
    | nil => exact ⟨default, rfl⟩
    | cons k ks ih =>
        by_cases hg : (hasGet res && !isListOrTuple res) = true
        · exact ⟨getNoFallback res k, by simp [execAlt, hg]⟩
        · cases hgi : getitem res k with
          | ok v => exact ⟨v, by simp [execAlt, hg, hgi]⟩
          | error e =>
              obtain ⟨r, hr⟩ := ih
              refine ⟨r, ?_⟩
              simp [execAlt, hg, hgi, getitem_err_lookup res k e hgi, hr]
  · intro strict_types default data r ks rest h
    simp [runSteps, h]

/-- Witness for the amended C3: the dict cursor takes `get("user")` and
yields `None` without trying `"admin"`; a list cursor skips the raising
candidate `"u"` and takes the first non-raising one; and the step feeds the
updated cursor to the rest of the traversal. -/
theorem C3_witness :
    execAlt (.str "D") (.dict [(.str "admin", .str "A")])
      [.str "user", .str "admin"] = .ok Value.none ∧
    execAlt (.str "D") (.list [.int 7, .int 8]) [.str "u", .int 0]
      = .ok (.int 7) ∧
    runSteps false (.str "D") (.dict [(.str "admin", .str "A")])
      [.alts [.str "user", .str "admin"]] = .ok Value.none :=
  ⟨C3_alternative_group_semantics.1 (.str "D") (.dict [(.str "admin", .str "A")])
     (.str "user") [.str "admin"] rfl,
   by
     rw [C3_alternative_group_semantics.2.2.1 (.str "D") (.list [.int 7, .int 8])
       (.str "u") [.int 0] .typeError rfl rfl]
     exact C3_alternative_group_semantics.2.1 _ _ _ _ (.int 7) rfl rfl,
   by
     rw [C3_alternative_group_semantics.2.2.2.2.2 false (.str "D") _ Value.none
       [.str "user", .str "admin"] []
       (C3_alternative_group_semantics.1 (.str "D")
         (.dict [(.str "admin", .str "A")]) (.str "user") [.str "admin"] rfl)]
     rfl⟩

/-- C8 counterexample: the subscript-capable list cursor `[10]` with the
non-numeric string key `"x"`: the first lookup raises a caught `TypeError`,
but the retry's coercion `int("x")` raises `ValueError`, which the branch's
`except (KeyError, IndexError, TypeError)` does not catch — the call ends
through the top-level handler with the cursor itself, not the default `"D"`
the claim predicts for a failed retry. -/
theorem C8_counterexample :
    nougat (.list [.int 10]) [.key (.str "x")] (.str "D") Option.none
      Option.none false = .ok (.list [.int 10]) ∧
    Value.list [.int 10] ≠ Value.str "D" :=
  ⟨rfl, fun h => Value.noConfusion h⟩

/-- C8 (amended): on a cursor reaching the `__getitem__` branch, `cursor[key]`
is attempted first and its value taken on success; on a caught lookup error
the key is coerced with `int(...)` and the subscript retried — a successful
retry gives that element (so a positional index expressed as a string
resolves on tuple-like records), a retry that raises a lookup error gives
`default`, but a coercion that itself raises (`ValueError` on a non-numeric
string) escapes the step instead of resolving to `default`. -/
theorem C8_subscript_retry_semantics :
    (∀ (strict_types : Bool) (default res : Value) (k : Key),
        subscriptBranch res k = true →
        execStep strict_types default res k = subscriptStep default res k) ∧
    (∀ (default res : Value) (k : Key) (v : Value),
        getitem res k = .ok v → subscriptStep default res k = .ok v) ∧
    (∀ (default res : Value) (k : Key) (e : PyExn) (n : Int) (v : Value),
        getitem res k = .error e → pyInt k = .ok n →
        getitem res (.int n) = .ok v → subscriptStep default res k = .ok v) ∧
    (∀ (default res : Value) (k : Key) (e : PyExn) (n : Int) (e2 : PyExn),
        getitem res k = .error e → pyInt k = .ok n →
        getitem res (.int n) = .error e2 →
        subscriptStep default res k = .ok default) ∧
    (∀ (default res : Value) (k : Key) (e : PyExn) (e2 : PyExn),
        getitem res k = .error e → pyInt k = .error e2 →
        subscriptStep default res k = .error e2) := by
  refine ⟨?_, ?_, ?_, ?_, ?_⟩
  · intro strict_types default res k h
    cases res <;> cases k <;> first
      | rfl
      | simp [subscriptBranch] at h
  · intro default res k v h
    simp [subscriptStep, h]
  · intro default res k e n v h1 h2 h3
    simp [subscriptStep, h1, h2, h3, getitem_err_lookup res k e h1]
  · intro default res k e n e2 h1 h2 h3
    simp [subscriptStep, h1, h2, h3, getitem_err_lookup res k e h1,
      getitem_err_lookup res (.int n) e2 h3]
  · intro default res k e e2 h1 h2
    simp [subscriptStep, h1, h2, getitem_err_lookup res k e h1]

/-- Witness for the amended C8: positional access via the string `"0"` on a
tuple cursor — `("Bob", 25)["0"]` raises `TypeError`, the coerced retry
`[int("0")]` resolves to `"Bob"` — both at the branch level and through the
scalar-step dispatch. -/
theorem C8_witness :
    subscriptStep (.str "D") (.tuple [.str "Bob", .int 25]) (.str "0")
      = .ok (.str "Bob") ∧
    execStep false (.str "D") (.tuple [.str "Bob", .int 25]) (.str "0")
      = .ok (.str "Bob") :=
  ⟨C8_subscript_retry_semantics.2.2.1 _ _ _ .typeError 0 _ rfl rfl rfl,
   by
     rw [C8_subscript_retry_semantics.1 false (.str "D")
       (.tuple [.str "Bob", .int 25]) (.str "0") rfl]
     exact C8_subscript_retry_semantics.2.2.1 _ _ _ .typeError 0 _ rfl rfl rfl⟩

/-! Sanity checks mirroring the repository's unit tests. -/

example :
    nougat (.dict [(.str "user", .dict [(.str "profile",
        .dict [(.str "name", .str "Alice")])])])
      [.key (.str "user"), .key (.str "profile"), .key (.str "name")]
      Value.none Option.none Option.none false = .ok (.str "Alice") := rfl

example :
    nougat (.dict [(.str "scores", .list [.int 85, .int 92, .int 78])])
      [.key (.str "scores"), .key (.int 1)] Value.none Option.none Option.none
      false = .ok (.int 92) := rfl

example :
    nougat (.dict [(.str "scores", .list [.int 85, .int 92, .int 78])])
      [.key (.str "scores"), .key (.int (-1))] Value.none Option.none
      Option.none false = .ok Value.none := rfl

example :
    nougat (.dict [(.str "user", .dict [(.str "preferences",
        .dict [(.str "theme", .str "dark")])])])
      [.key (.str "user.preferences.theme")] Value.none (some ".") Option.none
      false = .ok (.str "dark") := rfl

example :
    nougat (.dict [(.str "user", .dict [(.str "name", .str "A")])])
      [.key (.str "user..name")] Value.none (some ".") Option.none false
      = .ok Value.none := rfl

example :
    nougat (.dict [(.str "user", .dict [(.str "preferences",
        .dict [(.str "theme", .str "dark")])])])
      [.key (.str "user"), .alts [.str "settings", .str "preferences"],
        .key (.str "theme")]
      Value.none Option.none Option.none false = .ok Value.none := rfl

example :
    nougat (.dict [(.str "scores", .list [.int 85, .int 92])])
      [.key (.str "scores"), .alts [.int 0, .int 1, .int 2]]
      Value.none Option.none Option.none false = .ok (.int 85) := rfl

example :
    nougat (.objGet [(.str "custom_key", .str "custom_value")])
      [.key (.str "custom_key")] Value.none Option.none Option.none false
      = .ok (.str "custom_value") := rfl

example :
    nougat (.objItem [(.str "sub_key", .str "sub_value")])
      [.key (.str "sub_key")] Value.none Option.none Option.none false
      = .ok (.str "sub_value") := rfl

example :
    nougat (.tuple [.str "Bob", .int 25]) [.key (.int 0)] Value.none
      Option.none Option.none false = .ok (.str "Bob") := rfl

example :
    nougat Value.none [.key (.str "any"), .key (.str "path")] Value.none
      Option.none Option.none false = .ok Value.none := rfl

example :
    nougat (.dict [(.str "falsy", .dict [(.str "false", .bool false)])])
      [.key (.str "falsy"), .key (.str "false")] (.str "DEFAULT") Option.none
      Option.none false = .ok (.bool false) := rfl
